import Mathlib

/-!
Verification of the ShareAlbum photo-listing backend (the paginated
photo-listing handler of `src/unnamed/part_003`, second handler, together
with its `getPrivateKey` signing-key cache).  The JavaScript source is
shallowly embedded: AWS collaborators (object store, favorites table,
secret store, CDN signer) are injected as explicit function parameters,
`Math.random` outcomes are passed in as oracle inputs, and JS promises /
exceptions become the `Except` monad.
-/

namespace ShareAlbum

/-! ## Base64 transport encoding

The handler encodes the store continuation token with
`Buffer.from(token, 'utf-8').toString('base64')` and decodes the incoming
`nextToken` with `Buffer.from(nextToken, 'base64').toString('utf-8')`.
Tokens are modelled as byte lists (each entry `< 256`). -/

def b64AlphaChars : List Char :=
  "ABCDEFGHIJKLMNOPQRSTUVWXYZabcdefghijklmnopqrstuvwxyz0123456789+/".data

/-- Character for a 6-bit group. -/
def b64Char (n : Nat) : Char := b64AlphaChars.getD n 'A'

/-- Index of a character in the base64 alphabet, if any. -/
def b64CharIdx (c : Char) : Option Nat := go b64AlphaChars
where go : List Char → Option Nat
  | [] => none
  | x :: xs => if x = c then some 0 else (go xs).map (· + 1)

/-- Encode bytes to base64 characters, three bytes to four characters,
with `=` padding. -/
def b64EncodeCore : List Nat → List Char
  | [] => []
  | [a] => [b64Char (a / 4), b64Char (a % 4 * 16), '=', '=']
  | [a, b] => [b64Char (a / 4), b64Char (a % 4 * 16 + b / 16),
               b64Char (b % 16 * 4), '=']
  | a :: b :: c :: rest =>
      b64Char (a / 4) :: b64Char (a % 4 * 16 + b / 16) ::
      b64Char (b % 16 * 4 + c / 64) :: b64Char (c % 64) :: b64EncodeCore rest

def b64Encode (bs : List Nat) : String := ⟨b64EncodeCore bs⟩

/-- Decode base64 characters back to bytes; `none` on malformed input. -/
def b64DecodeCore : List Char → Option (List Nat)
  | [] => some []
  | [c1, c2, '=', '='] => do
      let i1 ← b64CharIdx c1
      let i2 ← b64CharIdx c2
      if i2 % 16 = 0 then some [i1 * 4 + i2 / 16] else none
  | [c1, c2, c3, '='] => do
      let i1 ← b64CharIdx c1
      let i2 ← b64CharIdx c2
      let i3 ← b64CharIdx c3
      if i3 % 4 = 0 then some [i1 * 4 + i2 / 16, i2 % 16 * 16 + i3 / 4]
      else none
  | c1 :: c2 :: c3 :: c4 :: rest => do
      let i1 ← b64CharIdx c1
      let i2 ← b64CharIdx c2
      let i3 ← b64CharIdx c3
      let i4 ← b64CharIdx c4
      let tail ← b64DecodeCore rest
      some ((i1 * 4 + i2 / 16) :: (i2 % 16 * 16 + i3 / 4) :: (i3 % 4 * 64 + i4) :: tail)
  | _ => none

def b64Decode (s : String) : Option (List Nat) := b64DecodeCore s.data

theorem b64CharIdx_b64Char : ∀ n < 64, b64CharIdx (b64Char n) = some n := by
  decide

theorem b64Char_ne_pad (n : Nat) : b64Char n ≠ '=' := by
  by_cases h : n < 64
  · exact (by decide : ∀ m < 64, b64Char m ≠ '=') n h
  · unfold b64Char
    rw [List.getD_eq_default]
    · decide
    · have : b64AlphaChars.length = 64 := by decide
      omega

theorem b64DecodeCore_encodeCore (bs : List Nat) (h : ∀ b ∈ bs, b < 256) :
    b64DecodeCore (b64EncodeCore bs) = some bs := by
  induction bs using b64EncodeCore.induct with
  | case1 => rfl
  | case2 a =>
      have ha : a < 256 := h a (by simp)
      rw [b64EncodeCore, b64DecodeCore]
      rw [b64CharIdx_b64Char _ (by omega), b64CharIdx_b64Char _ (by omega)]
      have h16 : a % 4 * 16 % 16 = 0 := by omega
      simp [h16]
      omega
  | case3 a b =>
      have ha : a < 256 := h a (by simp)
      have hb : b < 256 := h b (by simp)
      rw [b64EncodeCore, b64DecodeCore]
      rw [b64CharIdx_b64Char _ (by omega), b64CharIdx_b64Char _ (by omega),
          b64CharIdx_b64Char _ (by omega)]
      have h4 : b % 16 * 4 % 4 = 0 := by omega
      simp [h4]
      refine ⟨by omega, by omega⟩
      all_goals intros
      all_goals exact b64Char_ne_pad _ (by assumption)
  | case4 a b c rest ih =>
      have ha : a < 256 := h a (by simp)
      have hb : b < 256 := h b (by simp)
      have hc : c < 256 := h c (by simp)
      have hrest : ∀ x ∈ rest, x < 256 := by
        intro x hx; exact h x (by simp [hx])
      rw [b64EncodeCore, b64DecodeCore]
      rw [b64CharIdx_b64Char _ (by omega), b64CharIdx_b64Char _ (by omega),
          b64CharIdx_b64Char _ (by omega), b64CharIdx_b64Char _ (by omega)]
      rw [ih hrest]
      simp
      refine ⟨by omega, by omega, by omega⟩
      all_goals intros
      all_goals exact b64Char_ne_pad _ (by assumption)

theorem b64Decode_b64Encode (bs : List Nat) (h : ∀ b ∈ bs, b < 256) :
    b64Decode (b64Encode bs) = some bs := by
  unfold b64Decode b64Encode
  exact b64DecodeCore_encodeCore bs h

/-! ### Node's lenient base64 decoder

`Buffer.from(s, 'base64')` never throws: characters outside the
alphabet are skipped (the URL-safe `-`/`_` are accepted as 62/63),
decoding stops at the first `=`, and a trailing partial group of 2 or 3
digits still yields 1 or 2 bytes.  The `catch` around the decode in the
handler (line 281 of the source) is therefore dead code. -/

/-- Digit value of a character for the lenient decoder: the standard
alphabet plus the URL-safe `-`/`_`. -/
def b64LenientDigitOf (c : Char) : Option Nat :=
  if c = '-' then some 62
  else if c = '_' then some 63
  else b64CharIdx c

/-- The 6-bit digit stream of a string under the lenient decoder:
invalid characters are skipped, `=` stops decoding. -/
def b64LenientDigits : List Char → List Nat
  | [] => []
  | c :: cs =>
    if c = '=' then []
    else
      match b64LenientDigitOf c with
      | some v => v :: b64LenientDigits cs
      | none => b64LenientDigits cs

/-- Bytes of a 6-bit digit stream: complete groups of four digits give
three bytes; a trailing group of two or three digits gives one or two
bytes; a single leftover digit gives none. -/
def b64DigitsToBytes : List Nat → List Nat
  | [] => []
  | [_] => []
  | [a, b] => [a * 4 + b / 16]
  | [a, b, c] => [a * 4 + b / 16, b % 16 * 16 + c / 4]
  | a :: b :: c :: d :: rest =>
      (a * 4 + b / 16) :: (b % 16 * 16 + c / 4) :: (c % 4 * 64 + d) ::
      b64DigitsToBytes rest

/-- Node's `Buffer.from(s, 'base64')`: total, never failing. -/
def b64DecodeLenient (s : String) : List Nat :=
  b64DigitsToBytes (b64LenientDigits s.data)

theorem b64LenientDigitOf_b64Char :
    ∀ n < 64, b64LenientDigitOf (b64Char n) = some n := by
  decide

theorem b64LenientDigits_cons {n : Nat} (hn : n < 64) (cs : List Char) :
    b64LenientDigits (b64Char n :: cs) = n :: b64LenientDigits cs := by
  rw [b64LenientDigits, if_neg (b64Char_ne_pad n),
      b64LenientDigitOf_b64Char n hn]

theorem b64LenientDigits_pad (cs : List Char) :
    b64LenientDigits ('=' :: cs) = [] := by
  rw [b64LenientDigits, if_pos rfl]

/-- The lenient decoder also inverts the handler's encoder, so the
model's resume path agrees with Node on every token the system itself
issued. -/
theorem b64DecodeLenient_b64Encode (bs : List Nat) (h : ∀ b ∈ bs, b < 256) :
    b64DecodeLenient (b64Encode bs) = bs := by
  unfold b64DecodeLenient b64Encode
  show b64DigitsToBytes (b64LenientDigits (b64EncodeCore bs)) = bs
  induction bs using b64EncodeCore.induct with
  | case1 => rfl
  | case2 a =>
      have ha : a < 256 := h a (by simp)
      rw [b64EncodeCore, b64LenientDigits_cons (by omega),
          b64LenientDigits_cons (by omega), b64LenientDigits_pad,
          b64DigitsToBytes]
      have : a / 4 * 4 + a % 4 * 16 / 16 = a := by omega
      rw [this]
  | case3 a b =>
      have ha : a < 256 := h a (by simp)
      have hb : b < 256 := h b (by simp)
      rw [b64EncodeCore, b64LenientDigits_cons (by omega),
          b64LenientDigits_cons (by omega), b64LenientDigits_cons (by omega),
          b64LenientDigits_pad, b64DigitsToBytes]
      have h1 : a / 4 * 4 + (a % 4 * 16 + b / 16) / 16 = a := by omega
      have h2 : (a % 4 * 16 + b / 16) % 16 * 16 + b % 16 * 4 / 4 = b := by
        omega
      rw [h1, h2]
  | case4 a b c rest ih =>
      have ha : a < 256 := h a (by simp)
      have hb : b < 256 := h b (by simp)
      have hc : c < 256 := h c (by simp)
      have hrest : ∀ x ∈ rest, x < 256 := by
        intro x hx; exact h x (by simp [hx])
      rw [b64EncodeCore, b64LenientDigits_cons (by omega),
          b64LenientDigits_cons (by omega), b64LenientDigits_cons (by omega),
          b64LenientDigits_cons (by omega), b64DigitsToBytes, ih hrest]
      have h1 : a / 4 * 4 + (a % 4 * 16 + b / 16) / 16 = a := by omega
      have h2 : (a % 4 * 16 + b / 16) % 16 * 16 +
          (b % 16 * 4 + c / 64) / 4 = b := by omega
      have h3 : (b % 16 * 4 + c / 64) % 4 * 64 + c % 64 = c := by omega
      rw [h1, h2, h3]

/-! ## Data model -/

/-- An object-store entry (`obj` of `ListObjectsV2` `Contents`). -/
structure S3Object where
  key : String
  lastModified : Int
  size : Int
deriving DecidableEq, Repr

/-- Parameters of a `ListObjectsV2Command` as built by the handler. -/
structure ListParams where
  maxKeys : Int
  continuationToken : Option (List Nat)
  startAfter : Option String
deriving DecidableEq, Repr

/-- Result of a `ListObjectsV2` call. -/
structure ListResult where
  contents : List S3Object
  isTruncated : Bool
  nextContinuationToken : Option (List Nat)
deriving DecidableEq, Repr

/-- A photo entry of the JSON response.  Backfilled favorites carry no
`lastModified`/`size` (the source builds them without those fields). -/
structure Photo where
  key : String
  url : String
  isFavorite : Bool
  favoriteCount : Nat
  lastModified : Option Int
  size : Option Int
deriving DecidableEq, Repr

/-! ## String helpers mirroring the JS operations -/

/-- Whether `pat` is a leading segment of the character list. -/
def charsStart (pat : List Char) : List Char → Bool
  | [] => pat.isEmpty
  | c :: cs =>
    match pat with
    | [] => true
    | p :: ps => p == c && charsStart ps cs

/-- JS `String.prototype.includes`: `pat` occurs as a substring of `s`. -/
def strIncludes (pat s : String) : Bool := go pat.data s.data
where go (p : List Char) : List Char → Bool
  | [] => charsStart p []
  | c :: cs => charsStart p (c :: cs) || go p cs

/-- JS `String.prototype.endsWith`. -/
def strEnds (pat s : String) : Bool := charsStart pat.data.reverse s.data.reverse

/-- JS whitespace trim (`String.prototype.trim`). -/
def trimChars (l : List Char) : List Char :=
  ((l.dropWhile (·.isWhitespace)).reverse.dropWhile (·.isWhitespace)).reverse

/-- JS `key.trim().toLowerCase()` (line 367 of the source; keys are
ASCII, where `toLowerCase` is per-character). -/
def keyNorm (s : String) : String := ⟨(trimChars s.data).map Char.toLower⟩

/-- The media-type check of the listing filter (line 370). -/
def isImageKey (s : String) : Bool :=
  let k := keyNorm s
  strEnds ".jpg" k || strEnds ".jpeg" k || strEnds ".png" k ||
  strEnds ".gif" k || strEnds ".webp" k

/-- The duplicate-variant check of the listing filter (line 374). -/
def isVariantKey (s : String) : Bool :=
  let k := keyNorm s
  strIncludes "_a." k || strIncludes "_b." k

/-- The per-key filter applied to the listing (lines 364-379; `!obj.Key`
models the falsy empty key). -/
def keyAllowed (k : String) : Bool :=
  k != "" && isImageKey k && !isVariantKey k

/-- The complete per-object filter applied to the listing. -/
def listingFilter (o : S3Object) : Bool :=
  keyAllowed o.key

/-- JS `arr.slice(0, e)`: a negative end counts from the end of the
array, so the result is always a prefix. -/
def jsSlice0 (l : List Photo) (e : Int) : List Photo :=
  l.take (if e < 0 then ((l.length : Int) + e).toNat else e.toNat)

/-! ## The favorites-first sort (lines 450-458)

`photos.sort((a, b) => ...)` compares with `-1`/`1` across the
favorite/non-favorite boundary and `Math.random() - 0.5` otherwise.  The
sort is modelled as an insertion sort driven solely by the comparator;
the random draw is an arbitrary injected tie function. -/

/-- The comparator of the source, with the `Math.random() - 0.5` draw
replaced by an injected `tie`. -/
def sortRank (tie : Photo → Photo → Int) (a b : Photo) : Int :=
  if a.isFavorite && !b.isFavorite then -1
  else if !a.isFavorite && b.isFavorite then 1
  else tie a b

def insertByCmp (c : Photo → Photo → Int) (x : Photo) : List Photo → List Photo
  | [] => [x]
  | y :: ys => if c x y ≤ 0 then x :: y :: ys else y :: insertByCmp c x ys

def sortByCmp (c : Photo → Photo → Int) : List Photo → List Photo
  | [] => []
  | x :: xs => insertByCmp c x (sortByCmp c xs)

/-- Ordering relation of the claim: a non-favorite never precedes a favorite. -/
def favLe (a b : Photo) : Prop := b.isFavorite = true → a.isFavorite = true

theorem insertByCmp_perm (c : Photo → Photo → Int) (x : Photo) (l : List Photo) :
    List.Perm (insertByCmp c x l) (x :: l) := by
  induction l with
  | nil => exact List.Perm.refl _
  | cons y ys ih =>
    rw [insertByCmp]
    by_cases hc : c x y ≤ 0
    · rw [if_pos hc]
    · rw [if_neg hc]
      exact (ih.cons y).trans (List.Perm.swap x y ys)

theorem sortByCmp_perm (c : Photo → Photo → Int) (l : List Photo) :
    List.Perm (sortByCmp c l) l := by
  induction l with
  | nil => exact List.Perm.refl _
  | cons x xs ih =>
    rw [sortByCmp]
    exact (insertByCmp_perm c x (sortByCmp c xs)).trans (ih.cons x)

theorem mem_insertByCmp {c : Photo → Photo → Int} {x z : Photo} {l : List Photo} :
    z ∈ insertByCmp c x l ↔ z = x ∨ z ∈ l := by
  rw [(insertByCmp_perm c x l).mem_iff]
  simp

theorem insertByCmp_pairwise (tie : Photo → Photo → Int) (x : Photo)
    {l : List Photo} (h : l.Pairwise favLe) :
    (insertByCmp (sortRank tie) x l).Pairwise favLe := by
  induction l with
  | nil => simp [insertByCmp]
  | cons y ys ih =>
    rw [List.pairwise_cons] at h
    obtain ⟨hy, hys⟩ := h
    rw [insertByCmp]
    by_cases hc : sortRank tie x y ≤ 0
    · rw [if_pos hc]
      by_cases hx : x.isFavorite = true
      · exact List.Pairwise.cons (fun z _ => fun _ => hx)
          (List.Pairwise.cons hy hys)
      · -- x is not a favorite and compares ≤ 0 against y, so y is not a
        -- favorite either, and by pairwise-ness neither is anything in ys.
        have hyf : y.isFavorite = false := by
          by_contra hyf
          have hyt : y.isFavorite = true := by
            cases hb : y.isFavorite
            · exact absurd hb hyf
            · rfl
          have hxf : x.isFavorite = false := by
            cases hb : x.isFavorite
            · rfl
            · exact absurd hb hx
          rw [sortRank, hxf, hyt] at hc
          simp at hc
        refine List.Pairwise.cons ?_ (List.Pairwise.cons hy hys)
        intro z hz
        rcases List.mem_cons.mp hz with rfl | hz
        · intro hzf; rw [hzf] at hyf; cases hyf
        · intro hzf
          have := hy z hz hzf
          rw [this] at hyf; cases hyf
    · rw [if_neg hc]
      refine List.Pairwise.cons ?_ (ih hys)
      intro z hz
      rcases mem_insertByCmp.mp hz with rfl | hz
      · -- z = x: if x is a favorite then y must be too, else the
        -- comparator would have returned -1.
        intro hxf
        by_contra hyf
        have hyb : y.isFavorite = false := by
          cases hb : y.isFavorite
          · rfl
          · exact absurd hb hyf
        rw [sortRank, hxf, hyb] at hc
        simp at hc
      · exact hy z hz

theorem sortByCmp_pairwise (tie : Photo → Photo → Int) (l : List Photo) :
    (sortByCmp (sortRank tie) l).Pairwise favLe := by
  induction l with
  | nil => simp [sortByCmp]
  | cons x xs ih =>
    rw [sortByCmp]
    exact insertByCmp_pairwise tie x ih

/-! ## Sequential `Promise.all` over fallible operations

`await Promise.all(xs.map(f))` with a throwing `f` rejects with the first
failure; in the `Except` embedding this is a sequential fallible map. -/

def mapExcept (f : α → Except String β) : List α → Except String (List β)
  | [] => .ok []
  | x :: xs =>
    match f x with
    | .error e => .error e
    | .ok y =>
      match mapExcept f xs with
      | .error e => .error e
      | .ok ys => .ok (y :: ys)

theorem mapExcept_ok_length {f : α → Except String β} {l : List α}
    {ys : List β} (h : mapExcept f l = .ok ys) : ys.length = l.length := by
  induction l generalizing ys with
  | nil => rw [mapExcept] at h; cases h; rfl
  | cons x xs ih =>
    rw [mapExcept] at h
    cases hx : f x with
    | error e => rw [hx] at h; cases h
    | ok y =>
      rw [hx] at h
      cases hxs : mapExcept f xs with
      | error e => rw [hxs] at h; cases h
      | ok ys' =>
        rw [hxs] at h
        cases h
        simp [ih hxs]

theorem mapExcept_ok_map {f : α → Except String β} {l : List α} {ys : List β}
    (g : β → γ) (g' : α → γ) (hf : ∀ x y, f x = .ok y → g y = g' x)
    (h : mapExcept f l = .ok ys) : ys.map g = l.map g' := by
  induction l generalizing ys with
  | nil => rw [mapExcept] at h; cases h; rfl
  | cons x xs ih =>
    rw [mapExcept] at h
    cases hx : f x with
    | error e => rw [hx] at h; cases h
    | ok y =>
      rw [hx] at h
      cases hxs : mapExcept f xs with
      | error e => rw [hxs] at h; cases h
      | ok ys' =>
        rw [hxs] at h
        cases h
        simp [hf x y hx, ih hxs]

theorem mapExcept_error_of_mem {f : α → Except String β} {l : List α}
    {x : α} {e : String} (hx : x ∈ l) (hf : f x = .error e) :
    ∃ m, mapExcept f l = .error m := by
  induction l with
  | nil => cases hx
  | cons z zs ih =>
    rcases List.mem_cons.mp hx with rfl | hx'
    · exact ⟨e, by rw [mapExcept, hf]⟩
    · cases hz : f z with
      | error e' => exact ⟨e', by rw [mapExcept, hz]⟩
      | ok y =>
        obtain ⟨m, hm⟩ := ih hx'
        exact ⟨m, by rw [mapExcept, hz, hm]⟩

theorem mapExcept_ok_mem {f : α → Except String β} {l : List α} {ys : List β}
    (h : mapExcept f l = .ok ys) : ∀ y ∈ ys, ∃ x ∈ l, f x = .ok y := by
  induction l generalizing ys with
  | nil => rw [mapExcept] at h; cases h; intro y hy; cases hy
  | cons x xs ih =>
    rw [mapExcept] at h
    cases hx : f x with
    | error e => rw [hx] at h; cases h
    | ok y =>
      rw [hx] at h
      cases hxs : mapExcept f xs with
      | error e => rw [hxs] at h; cases h
      | ok ys' =>
        rw [hxs] at h
        cases h
        intro z hz
        rcases List.mem_cons.mp hz with rfl | hz'
        · exact ⟨x, List.mem_cons_self x xs, hx⟩
        · obtain ⟨w, hw, hfw⟩ := ih hxs z hz'
          exact ⟨w, List.mem_cons_of_mem x hw, hfw⟩

/-! ## Handler environment and request

All AWS collaborators are injected.  `getKey` is the settled result of
`getPrivateKey()` for this invocation (the in-process cache makes it a
single value per request); `signUrl` is the `@aws-sdk/cloudfront-signer`
`getSignedUrl` call, taking the private key, the key-pair id and the
resource URL.  `favQuery` is the favorites `QueryCommand` result,
`favScan` the favorite-count `ScanCommand` aggregation. -/

structure HandlerEnv where
  store : ListParams → Except String ListResult
  favQuery : Except String (List String)
  favScan : Except String (String → Nat)
  getKey : Except String String
  signUrl : String → String → String → Except String String
  cfDomain : Option String
  cfKeyPairId : Option String
  favTable : Bool

structure HandlerRequest where
  limitParam : Option (Option Int)
  nextToken : Option String
  userId : Option String

/-- The two `Math.random`-derived choices of one invocation: the outcome
of `generateRandomStartKey()` and the sort tie-break draws. -/
structure Rand where
  randKey : Option String
  tie : Photo → Photo → Int

structure RespBody where
  photos : List Photo
  pagLimit : Int
  pagCount : Nat
  hasMore : Bool
  nextTok : Option String
deriving DecidableEq, Repr

instance : DecidableEq (Except String RespBody) :=
  fun a b =>
    match a, b with
    | .ok x, .ok y =>
      if h : x = y then isTrue (by rw [h])
      else isFalse (by intro he; cases he; exact h rfl)
    | .error x, .error y =>
      if h : x = y then isTrue (by rw [h])
      else isFalse (by intro he; cases he; exact h rfl)
    | .ok _, .error _ => isFalse (by intro he; cases he)
    | .error _, .ok _ => isFalse (by intro he; cases he)

/-- Parsing `parseInt(queryParams.limit) || 25`: `none` models an absent
parameter, `some none` a non-numeric one (`parseInt` gives `NaN`); a
parsed `0` is falsy in JS and also falls back to 25. -/
def parsedLimit : Option (Option Int) → Int
  | none => 25
  | some none => 25
  | some (some n) => if n = 0 then 25 else n

/-- Effective limit `Math.min(parseInt(queryParams.limit) || 25, 100)` (line 265). -/
def effectiveLimit (p : Option (Option Int)) : Int :=
  min (parsedLimit p) 100

/-- Normalization `queryParams.nextToken || null`: an empty string is falsy. -/
def activeToken (req : HandlerRequest) : Option String :=
  match req.nextToken with
  | some t => if t == "" then none else some t
  | none => none

/-- Truthiness of `listParams.StartAfter` in the fallback condition. -/
def startAfterTruthy : Option String → Bool
  | some k => !(k == "")
  | none => false

/-- User favorites lookup (lines 330-342): queried only when a user id is
present and the favorites table is configured. -/
def favsOf (env : HandlerEnv) (req : HandlerRequest) :
    Except String (List String) :=
  if req.userId.isSome && env.favTable then env.favQuery else .ok []

/-- Favorite-count scan (lines 344-355); the JS `Map.get(k) || 0` default
is folded into the returned function. -/
def countsOf (env : HandlerEnv) (req : HandlerRequest) :
    Except String (String → Nat) :=
  if req.userId.isSome && env.favTable then env.favScan else .ok (fun _ => 0)

/-- The private-key pre-fetch (lines 357-360). -/
def prefetchOf (env : HandlerEnv) : Except String Unit :=
  if env.cfDomain.isSome && env.cfKeyPairId.isSome then
    match env.getKey with
    | .ok _ => .ok ()
    | .error e => .error e
  else .ok ()

/-- Resource URL `https://${CLOUDFRONT_DOMAIN}/${path}` with the leading slash of the
resource path removed (lines 159-163). -/
def cfUrl (dom path : String) : String :=
  "https://" ++ dom ++ "/" ++
    (match path.data with
     | '/' :: rest => (⟨rest⟩ : String)
     | _ => path)

/-- Signing helper `getCloudFrontSignedUrl` (lines 152-182). -/
def getCloudFrontSignedUrl (env : HandlerEnv) (resourcePath : String) :
    Except String String :=
  match env.cfDomain, env.cfKeyPairId with
  | some dom, some kp =>
    match env.getKey with
    | .error e => .error e
    | .ok pk =>
      match env.signUrl pk kp (cfUrl dom resourcePath) with
      | .ok u => .ok u
      | .error e => .error ("Failed to generate CloudFront signed URL: " ++ e)
  | _, _ => .error "CloudFront domain or key pair ID not configured"

/-- The per-photo mapping of the main page-generation path
(lines 388-414): a signing failure is re-thrown and fails the request. -/
def buildPhoto (env : HandlerEnv) (counts : String → Nat)
    (userFavs : List String) (o : S3Object) : Except String Photo :=
  if env.cfDomain.isSome && env.cfKeyPairId.isSome then
    match getCloudFrontSignedUrl env o.key with
    | .ok u => .ok ⟨o.key, u, userFavs.contains o.key, counts o.key,
                    some o.lastModified, some o.size⟩
    | .error e => .error ("Failed to generate signed URL: " ++ e)
  else .error "CloudFront configuration missing. Please configure CLOUDFRONT_DOMAIN and CLOUDFRONT_KEY_PAIR_ID."

/-- The per-favorite mapping of the backfill path (lines 425-441): a
signing failure is caught and the favorite dropped (`null`). -/
def backfillPhoto (env : HandlerEnv) (counts : String → Nat) (k : String) :
    Option Photo :=
  match getCloudFrontSignedUrl env k with
  | .ok u => some ⟨k, u, true, counts k, none, none⟩
  | .error _ => none

/-- The favorites backfill (lines 416-448): at most
`min(3, missing.length)` favorites missing from the page are signed and
the successfully signed ones collected. -/
def backfillList (env : HandlerEnv) (counts : String → Nat)
    (userFavs : List String) (mainPhotos : List Photo) : List Photo :=
  let present := mainPhotos.map (·.key)
  let missing := userFavs.filter (fun f => !(present.contains f))
  let favoritesToAdd := min 3 missing.length
  (missing.take favoritesToAdd).filterMap (backfillPhoto env counts)

/-- Splice `photos.unshift(...validMissingFavorites)` guarded by
`!nextToken && userFavorites.size > 0` (line 417). -/
def splicedOf (env : HandlerEnv) (req : HandlerRequest)
    (counts : String → Nat) (userFavs : List String)
    (mainPhotos : List Photo) : List Photo :=
  if (activeToken req).isNone && !userFavs.isEmpty then
    backfillList env counts userFavs mainPhotos
  else []

/-- Sort then trim (lines 450-461): the first page is cut to `limit`
after sorting, continuation pages are returned whole. -/
def finalPhotosOf (env : HandlerEnv) (req : HandlerRequest) (rnd : Rand)
    (limit : Int) (counts : String → Nat) (userFavs : List String)
    (mainPhotos : List Photo) : List Photo :=
  let sorted := sortByCmp (sortRank rnd.tie)
    (splicedOf env req counts userFavs mainPhotos ++ mainPhotos)
  if (activeToken req).isSome then sorted else jsSlice0 sorted limit

/-- Condition `data.IsTruncated && data.NextContinuationToken` with JS truthiness
(an empty token string is falsy). -/
def hasMoreOf (d : ListResult) : Bool :=
  d.isTruncated &&
    (match d.nextContinuationToken with
     | some t => !t.isEmpty
     | none => false)

/-- The emitted `pagination.nextToken` (lines 475-478). -/
def nextTokOf (d : ListResult) : Option String :=
  match d.nextContinuationToken with
  | some t => if d.isTruncated && !t.isEmpty then some (b64Encode t) else none
  | none => none

/-- Everything the handler does after settling on a listing result
(lines 326-478): favorites lookup, key pre-fetch, filtering, signing,
backfill, sort, trim, response shaping. -/
def respOf (env : HandlerEnv) (req : HandlerRequest) (rnd : Rand)
    (limit : Int) (d : ListResult) : Except String RespBody :=
  match favsOf env req with
  | .error e => .error e
  | .ok userFavs =>
    match countsOf env req with
    | .error e => .error e
    | .ok counts =>
      match prefetchOf env with
      | .error e => .error e
      | .ok _ =>
        match mapExcept (buildPhoto env counts userFavs)
            (d.contents.filter listingFilter) with
        | .error e => .error e
        | .ok mainPhotos =>
          .ok ⟨finalPhotosOf env req rnd limit counts userFavs mainPhotos,
               limit,
               (finalPhotosOf env req rnd limit counts userFavs mainPhotos).length,
               hasMoreOf d, nextTokOf d⟩

/-- The `ListObjectsV2` parameters of the resume call for a decoded
cursor (lines 269-279). -/
def tokenParams (limit : Int) (bytes : List Nat) : ListParams :=
  ⟨limit, some bytes, none⟩

/-- The `ListObjectsV2` parameters of the first-page sampled call
(lines 269-297). -/
def sampleParams (limit : Int) (randKey : Option String) : ListParams :=
  ⟨limit, none, randKey⟩

/-- The `ListObjectsV2` parameters of the full-range fallback call
(lines 307-310). -/
def fallbackParams (limit : Int) : ListParams :=
  ⟨limit, none, none⟩

/-- The fallback trigger `(data.Contents || []).length <
Math.min(limit / 2, 10)` (line 304), in exact arithmetic:
`len < min(limit/2, 10)` over the rationals is equivalent to
`2*len < limit ∧ len < 10` over the integers (`fallbackNeeded_iff`
below proves the equivalence). -/
def fallbackNeeded (limit : Int) (d : ListResult) : Prop :=
  2 * (d.contents.length : Int) < limit ∧ (d.contents.length : Int) < 10

instance (limit : Int) (d : ListResult) : Decidable (fallbackNeeded limit d) :=
  inferInstanceAs
    (Decidable (2 * (d.contents.length : Int) < limit ∧
      (d.contents.length : Int) < 10))

theorem fallbackNeeded_iff (limit : Int) (d : ListResult) :
    fallbackNeeded limit d ↔
      ((d.contents.length : ℚ) < min ((limit : ℚ) / 2) 10) := by
  rw [fallbackNeeded, lt_min_iff]
  constructor
  · rintro ⟨h1, h2⟩
    constructor
    · rw [lt_div_iff (by norm_num)]
      have h3 : (d.contents.length : Int) * 2 < limit := by omega
      exact_mod_cast h3
    · exact_mod_cast h2
  · rintro ⟨h1, h2⟩
    rw [lt_div_iff (by norm_num)] at h1
    have h3 : (d.contents.length : Int) * 2 < limit := by exact_mod_cast h1
    have h4 : (d.contents.length : Int) < 10 := by exact_mod_cast h2
    exact ⟨by omega, h4⟩

/-- The photo-listing handler (lines 254-526).  Returns the settled
result (an `Except` standing for the 200/500 outcome) together with the
trace of `ListObjectsV2` calls issued, in order.  The cursor decode uses
Node's lenient `Buffer.from(nextToken, 'base64')`, which never throws —
the `catch` at line 281 is dead code — so a cursor-bearing request
always issues the resume listing call with the leniently decoded
token. -/
def handler (env : HandlerEnv) (req : HandlerRequest) (rnd : Rand) :
    Except String RespBody × List ListParams :=
  match activeToken req with
  | some tok =>
    match env.store (tokenParams (effectiveLimit req.limitParam)
        (b64DecodeLenient tok)) with
    | .error e => (.error e, [tokenParams (effectiveLimit req.limitParam)
                              (b64DecodeLenient tok)])
    | .ok d => (respOf env req rnd (effectiveLimit req.limitParam) d,
                [tokenParams (effectiveLimit req.limitParam)
                 (b64DecodeLenient tok)])
  | none =>
    match env.store (sampleParams (effectiveLimit req.limitParam) rnd.randKey) with
    | .error e => (.error e, [sampleParams (effectiveLimit req.limitParam) rnd.randKey])
    | .ok d =>
      if startAfterTruthy rnd.randKey then
        if fallbackNeeded (effectiveLimit req.limitParam) d then
          match env.store (fallbackParams (effectiveLimit req.limitParam)) with
          | .error _ => (respOf env req rnd (effectiveLimit req.limitParam) d,
                         [sampleParams (effectiveLimit req.limitParam) rnd.randKey,
                          fallbackParams (effectiveLimit req.limitParam)])
          | .ok fd =>
            if fd.contents.length > d.contents.length then
              (respOf env req rnd (effectiveLimit req.limitParam) fd,
               [sampleParams (effectiveLimit req.limitParam) rnd.randKey,
                fallbackParams (effectiveLimit req.limitParam)])
            else
              (respOf env req rnd (effectiveLimit req.limitParam) d,
               [sampleParams (effectiveLimit req.limitParam) rnd.randKey,
                fallbackParams (effectiveLimit req.limitParam)])
        else (respOf env req rnd (effectiveLimit req.limitParam) d,
              [sampleParams (effectiveLimit req.limitParam) rnd.randKey])
      else (respOf env req rnd (effectiveLimit req.limitParam) d,
            [sampleParams (effectiveLimit req.limitParam) rnd.randKey])

/-- HTTP status of a settled handler result. -/
def statusOf : Except String RespBody → Nat
  | .ok _ => 200
  | .error _ => 500

/-- Photos of a successful result ([] for an error result). -/
def okPhotos : Except String RespBody → List Photo
  | .ok r => r.photos
  | .error _ => []

/-! ## Structural lemmas about the embedded handler -/

theorem buildPhoto_key {env : HandlerEnv} {counts : String → Nat}
    {userFavs : List String} {o : S3Object} {p : Photo}
    (h : buildPhoto env counts userFavs o = .ok p) : p.key = o.key := by
  rw [buildPhoto] at h
  split at h
  · split at h
    · cases h; rfl
    · cases h
  · cases h

theorem backfillPhoto_some {env : HandlerEnv} {counts : String → Nat}
    {k : String} {p : Photo} (h : backfillPhoto env counts k = some p) :
    p.key = k ∧ p.isFavorite = true := by
  rw [backfillPhoto] at h
  split at h
  · cases h; exact ⟨rfl, rfl⟩
  · cases h

theorem backfillList_length_le (env : HandlerEnv) (counts : String → Nat)
    (userFavs : List String) (mainPhotos : List Photo) :
    (backfillList env counts userFavs mainPhotos).length ≤ 3 := by
  rw [backfillList]
  refine le_trans (List.length_filterMap_le _ _) ?_
  refine le_trans (List.length_take_le _ _) ?_
  exact min_le_left _ _

theorem backfillList_mem {env : HandlerEnv} {counts : String → Nat}
    {userFavs : List String} {mainPhotos : List Photo} {p : Photo}
    (h : p ∈ backfillList env counts userFavs mainPhotos) :
    p.key ∈ userFavs ∧ p.isFavorite = true := by
  rw [backfillList] at h
  obtain ⟨k, hk, hp⟩ := List.mem_filterMap.mp h
  obtain ⟨hkey, hfav⟩ := backfillPhoto_some hp
  have hsub := List.take_subset _ _ hk
  have hk' : k ∈ userFavs := (List.mem_filter.mp hsub).1
  exact ⟨hkey ▸ hk', hfav⟩

theorem splicedOf_length_le (env : HandlerEnv) (req : HandlerRequest)
    (counts : String → Nat) (userFavs : List String)
    (mainPhotos : List Photo) :
    (splicedOf env req counts userFavs mainPhotos).length ≤ 3 := by
  rw [splicedOf]
  split
  · exact backfillList_length_le env counts userFavs mainPhotos
  · simp

theorem splicedOf_mem {env : HandlerEnv} {req : HandlerRequest}
    {counts : String → Nat} {userFavs : List String}
    {mainPhotos : List Photo} {p : Photo}
    (h : p ∈ splicedOf env req counts userFavs mainPhotos) :
    p.key ∈ userFavs := by
  rw [splicedOf] at h
  split at h
  · exact (backfillList_mem h).1
  · cases h

theorem splicedOf_cursor {env : HandlerEnv} {req : HandlerRequest}
    {counts : String → Nat} {userFavs : List String}
    {mainPhotos : List Photo} (h : (activeToken req).isSome = true) :
    splicedOf env req counts userFavs mainPhotos = [] := by
  rw [splicedOf]
  have : (activeToken req).isNone = false := by
    cases ht : activeToken req
    · rw [ht] at h; cases h
    · rfl
  rw [this]
  simp

/-- A successful post-listing phase decomposes into its stages. -/
theorem respOf_ok_inv {env : HandlerEnv} {req : HandlerRequest} {rnd : Rand}
    {limit : Int} {d : ListResult} {resp : RespBody}
    (h : respOf env req rnd limit d = .ok resp) :
    ∃ userFavs counts mainPhotos,
      favsOf env req = .ok userFavs ∧
      countsOf env req = .ok counts ∧
      mapExcept (buildPhoto env counts userFavs)
        (d.contents.filter listingFilter) = .ok mainPhotos ∧
      resp.photos = finalPhotosOf env req rnd limit counts userFavs mainPhotos ∧
      resp.pagCount = resp.photos.length ∧
      resp.pagLimit = limit := by
  rw [respOf] at h
  split at h
  · cases h
  next userFavs hf =>
    split at h
    · cases h
    next counts hcnt =>
      split at h
      · cases h
      next u hpf =>
        split at h
        · cases h
        next mainPhotos hm =>
          cases h
          exact ⟨userFavs, counts, mainPhotos, hf, hcnt, hm, rfl, rfl, rfl⟩

/-- A successful handler run used some listing call whose `MaxKeys` was
the effective limit, and shaped the response from its result. -/
theorem handler_ok_inv {env : HandlerEnv} {req : HandlerRequest}
    {rnd : Rand} {resp : RespBody}
    (h : (handler env req rnd).1 = .ok resp) :
    ∃ p d, env.store p = .ok d ∧
      p.maxKeys = effectiveLimit req.limitParam ∧
      respOf env req rnd (effectiveLimit req.limitParam) d = .ok resp := by
  rw [handler] at h
  split at h
  next tok htk =>
    split at h
    · cases h
    next d hstore =>
      exact ⟨tokenParams (effectiveLimit req.limitParam) (b64DecodeLenient tok),
             d, hstore, rfl, h⟩
  next =>
    split at h
    · cases h
    next d hstore =>
      split at h
      · split at h
        · split at h
          next hfb => exact ⟨_, d, hstore, rfl, h⟩
          next fd hfb =>
            split at h
            · exact ⟨fallbackParams (effectiveLimit req.limitParam), fd, hfb,
                     rfl, h⟩
            · exact ⟨_, d, hstore, rfl, h⟩
        · exact ⟨_, d, hstore, rfl, h⟩
      · exact ⟨_, d, hstore, rfl, h⟩

/-- Whatever else a run does, its first listing call (when any call is
made at all, i.e. on the first-page path) is the sampled one, whose
`MaxKeys` is the effective limit. -/
theorem handler_first_call (env : HandlerEnv) (req : HandlerRequest)
    (rnd : Rand) (hat : activeToken req = none) :
    (handler env req rnd).2.head? =
      some (sampleParams (effectiveLimit req.limitParam) rnd.randKey) := by
  rw [handler]
  simp only [hat]
  split
  · rfl
  next d heq =>
    split
    · split
      · split
        · rfl
        · split <;> rfl
      · rfl
    · rfl

/-! ## C1: effective page size -/

/-- C1, counterexample: the claim says the effective page size is
`clamp(parsedLimit, 1, 100)`; for `limit=-5` the code computes
`Math.min(-5, 100) = -5`, not the clamped value `1`. -/
theorem c1_counterexample :
    effectiveLimit (some (some (-5))) = -5 ∧
    effectiveLimit (some (some (-5))) ≠ max 1 (min (-5 : Int) 100) := by
  constructor
  · decide
  · decide

/-- C1 (amended): the effective page size is `min(parsed, 100)` with
default 25 when the `limit` parameter is absent, non-numeric or zero; it
never exceeds 100 and equals `clamp(parsed, 1, 100)` for every parsed
value `≥ 1`, but negative parsed values are not clamped from below.  The
first listing call of a first-page request uses exactly this limit as
`MaxKeys`. -/
theorem c1_amended_limit (p : Option (Option Int)) :
    effectiveLimit p ≤ 100 ∧
    effectiveLimit none = 25 ∧
    effectiveLimit (some none) = 25 ∧
    (∀ n : Int, 1 ≤ n → p = some (some n) →
       effectiveLimit p = max 1 (min n 100)) ∧
    (∀ env req rnd, req.limitParam = p → activeToken req = none →
       (handler env req rnd).2.head? =
         some (sampleParams (effectiveLimit p) rnd.randKey)) := by
  refine ⟨?_, rfl, rfl, ?_, ?_⟩
  · exact min_le_right _ _
  · intro n hn hp
    subst hp
    rw [effectiveLimit, parsedLimit]
    rw [if_neg (by omega)]
    omega
  · intro env req rnd hlp hat
    rw [← hlp]
    exact handler_first_call env req rnd hat

theorem c1_amended_limit_witness :
    effectiveLimit (some (some 7)) = max 1 (min (7 : Int) 100) :=
  (c1_amended_limit (some (some 7))).2.2.2.1 7 (by norm_num) rfl

/-! ## C8: cursor round trip -/

/-- C8: for every store continuation token (a byte string), the
transport encoding round-trips: decoding the base64 `nextToken` the
handler would emit reproduces the token exactly, and in particular the
`pagination.nextToken` the handler attaches to a response decodes back
to the listing result's continuation token. -/
theorem c8_roundtrip (t : List Nat) (hb : ∀ b ∈ t, b < 256) :
    b64Decode (b64Encode t) = some t ∧
    ∀ d : ListResult, d.nextContinuationToken = some t →
      ∀ s, nextTokOf d = some s → b64Decode s = some t := by
  refine ⟨b64Decode_b64Encode t hb, ?_⟩
  intro d hd s hs
  simp only [nextTokOf, hd] at hs
  split at hs
  · cases hs
    exact b64Decode_b64Encode t hb
  · cases hs

theorem c8_roundtrip_witness :
    b64Decode (b64Encode [97, 98, 99]) = some [97, 98, 99] :=
  (c8_roundtrip [97, 98, 99] (by decide)).1

/-! ## C9: the `getPrivateKey` single-flight cache (lines 96-144)

Modelled as a state machine over the module-level mutable state of the
source: `cached` stands for `cachedPrivateKey !== null`, `inflight` for
`privateKeyPromise !== null`, and `fetches` counts the
`GetSecretValueCommand` sends.  `KeyEv.call` is the synchronous prefix
of a `getPrivateKey()` invocation (up to its first `await`);
`KeyEv.completeOk` / `KeyEv.completeFail` are the settlement of the
in-flight fetch promise (success stores the key, line 132; failure
resets `privateKeyPromise = null` for retry, line 138). -/

structure KeyCacheState where
  cached : Bool
  inflight : Bool
  fetches : Nat
deriving DecidableEq, Repr

inductive KeyEv where
  | call
  | completeOk
  | completeFail
deriving DecidableEq, Repr

def keyStep (s : KeyCacheState) : KeyEv → KeyCacheState
  | .call =>
    if s.cached then s
    else if s.inflight then s
    else { s with inflight := true, fetches := s.fetches + 1 }
  | .completeOk =>
    if s.inflight && !s.cached then { s with cached := true } else s
  | .completeFail =>
    if s.inflight && !s.cached then { s with inflight := false } else s

def keyInit : KeyCacheState := ⟨false, false, 0⟩

def keyRun (evs : List KeyEv) : KeyCacheState := evs.foldl keyStep keyInit

def failCount (evs : List KeyEv) : Nat :=
  evs.countP (fun e => e == KeyEv.completeFail)

/-- Potential function: fetches plus one pending "right to fetch". -/
def keyMeasure (s : KeyCacheState) : Nat :=
  s.fetches + (if s.inflight || s.cached then 0 else 1)

theorem keyStep_measure (s : KeyCacheState) (e : KeyEv) :
    keyMeasure (keyStep s e) ≤
      keyMeasure s + (if e = KeyEv.completeFail then 1 else 0) := by
  obtain ⟨c, i, f⟩ := s
  cases e <;> cases c <;> cases i <;> simp [keyStep, keyMeasure]

theorem keyFoldl_measure (evs : List KeyEv) (s : KeyCacheState) :
    keyMeasure (evs.foldl keyStep s) ≤ keyMeasure s + failCount evs := by
  induction evs generalizing s with
  | nil => simp [failCount]
  | cons e es ih =>
    rw [List.foldl_cons]
    have h1 := ih (keyStep s e)
    have h2 := keyStep_measure s e
    have h3 : failCount (e :: es) =
        failCount es + (if e = KeyEv.completeFail then 1 else 0) := by
      rw [failCount, failCount, List.countP_cons]
      by_cases hf : e = KeyEv.completeFail <;> simp [hf]
    rw [h3]
    omega

theorem keyStep_cached (s : KeyCacheState) (e : KeyEv)
    (h : s.cached = true) : keyStep s e = s := by
  obtain ⟨c, i, f⟩ := s
  cases h
  cases e <;> cases i <;> simp [keyStep]

theorem keyFoldl_cached (more : List KeyEv) (s : KeyCacheState)
    (h : s.cached = true) : more.foldl keyStep s = s := by
  induction more with
  | nil => rfl
  | cons e es ih =>
    rw [List.foldl_cons, keyStep_cached s e h]
    exact ih

/-- C9, counterexample: the claim says the key is fetched at most once
per process lifetime; after a failed fetch the promise guard is reset
(line 138), so the run call–fail–call issues two fetches. -/
theorem c9_counterexample :
    (keyRun [KeyEv.call, KeyEv.completeFail, KeyEv.call]).fetches = 2 ∧
    ¬ (∀ evs : List KeyEv, (keyRun evs).fetches ≤ 1) := by
  constructor
  · decide
  · intro hall
    exact absurd (hall [KeyEv.call, KeyEv.completeFail, KeyEv.call])
      (by decide)

/-- C9 (amended): in any interleaving, the number of secret-store
fetches is at most one more than the number of failed fetches (so
without failures at most one fetch is ever issued and concurrent
first-callers never duplicate it); a call made while a fetch is in
flight changes nothing (it awaits the shared promise); and once the key
is cached every further event, in particular every later call, leaves
the state unchanged — no new fetch for the rest of the process. -/
theorem c9_amended (evs more : List KeyEv) :
    (keyRun evs).fetches ≤ 1 + failCount evs ∧
    ((keyRun evs).cached = true → keyRun (evs ++ more) = keyRun evs) ∧
    (∀ s : KeyCacheState, s.inflight = true → keyStep s KeyEv.call = s) := by
  refine ⟨?_, ?_, ?_⟩
  · have h := keyFoldl_measure evs keyInit
    have h2 : (keyRun evs).fetches ≤ keyMeasure (keyRun evs) :=
      Nat.le_add_right _ _
    have h3 : keyMeasure keyInit = 1 := by decide
    rw [keyRun]
    rw [keyRun] at h2
    omega
  · intro h
    rw [keyRun, List.foldl_append]
    exact keyFoldl_cached more _ h
  · intro s hi
    obtain ⟨c, i, f⟩ := s
    cases hi
    cases c <;> simp [keyStep]

theorem c9_amended_witness :
    (keyRun [KeyEv.call, KeyEv.completeOk, KeyEv.call]).fetches ≤
      1 + failCount [KeyEv.call, KeyEv.completeOk, KeyEv.call] :=
  (c9_amended [KeyEv.call, KeyEv.completeOk, KeyEv.call] []).1

/-! ## C10: pagination count and limit -/

theorem jsSlice0_sublist (l : List Photo) (e : Int) :
    (jsSlice0 l e).Sublist l := by
  rw [jsSlice0]
  exact List.take_sublist _ _

theorem jsSlice0_length_le (l : List Photo) (e : Int) (he : 0 ≤ e) :
    ((jsSlice0 l e).length : Int) ≤ e := by
  rw [jsSlice0, if_neg (by omega)]
  have h := List.length_take_le e.toNat l
  omega

/-- C10: every successful response reports `pagination.count` equal to
the number of returned photos, and (for a store honoring `MaxKeys`) that
number never exceeds the effective limit — on cursor pages because the
store returns at most `limit` keys and filtering only removes items, on
first pages because the sorted list is trimmed to the limit. -/
theorem c10_pagination (env : HandlerEnv) (req : HandlerRequest) (rnd : Rand)
    (resp : RespBody)
    (hstore : ∀ p r, env.store p = .ok r →
      (r.contents.length : Int) ≤ p.maxKeys)
    (h : (handler env req rnd).1 = .ok resp) :
    resp.pagCount = resp.photos.length ∧
    (resp.photos.length : Int) ≤ resp.pagLimit ∧
    resp.pagLimit = effectiveLimit req.limitParam := by
  obtain ⟨p, d, hsd, hpmax, hresp⟩ := handler_ok_inv h
  obtain ⟨userFavs, counts, mainPhotos, hf, hcnt, hm, hphotos, hcount, hlim⟩ :=
    respOf_ok_inv hresp
  have hdlen : (d.contents.length : Int) ≤ effectiveLimit req.limitParam := by
    have hh := hstore p d hsd
    rw [hpmax] at hh
    exact hh
  have hlimnn : 0 ≤ effectiveLimit req.limitParam :=
    le_trans (Int.natCast_nonneg _) hdlen
  refine ⟨hcount, ?_, hlim⟩
  rw [hphotos, hlim, finalPhotosOf]
  split
  next hcur =>
    have hperm := sortByCmp_perm (sortRank rnd.tie)
      (splicedOf env req counts userFavs mainPhotos ++ mainPhotos)
    rw [hperm.length_eq, splicedOf_cursor hcur, List.nil_append,
        mapExcept_ok_length hm]
    have hfl := List.length_filter_le listingFilter d.contents
    omega
  next hcur =>
    exact jsSlice0_length_le _ _ hlimnn

/-- Fields: store, favQuery, favScan, getKey, signUrl, cfDomain,
cfKeyPairId, favTable.  The store honors `MaxKeys` and rejects negative
values, like the real object store. -/
def envC10 : HandlerEnv :=
  ⟨fun p => if p.maxKeys < 0 then .error "InvalidArgument"
            else .ok ⟨[], false, none⟩,
   .ok [], .ok (fun _ => 0), .ok "PK",
   fun _ _ _ => .ok "https://signed.example/u",
   some "cdn.example.net", some "KP", true⟩

def reqC10 : HandlerRequest := ⟨none, none, none⟩

def rndC10 : Rand := ⟨none, fun _ _ => 0⟩

def respC10 : RespBody := ⟨[], 25, 0, false, none⟩

theorem c10_pagination_witness :
    respC10.pagCount = respC10.photos.length ∧
    (respC10.photos.length : Int) ≤ respC10.pagLimit ∧
    respC10.pagLimit = effectiveLimit reqC10.limitParam := by
  refine c10_pagination envC10 reqC10 rndC10 respC10 ?_ rfl
  intro p r hr
  simp only [envC10] at hr
  split at hr
  · cases hr
  next hneg =>
    cases hr
    simp only [List.length_nil, Nat.cast_zero]
    omega

/-! ## C4: favorites precede non-favorites -/

theorem pairwise_favLe_get {l : List Photo} (h : l.Pairwise favLe)
    {i j : Nat} (hij : i < j)
    (hj : (l.map (·.isFavorite)).get? j = some true) :
    (l.map (·.isFavorite)).get? i = some true := by
  rw [List.get?_map] at hj ⊢
  cases hgj : l.get? j with
  | none => rw [hgj] at hj; cases hj
  | some pj =>
    rw [hgj] at hj
    have hpj : pj.isFavorite = true := by
      simpa using hj
    obtain ⟨hjl, hgetj⟩ := List.get?_eq_some.mp hgj
    have hil : i < l.length := lt_trans hij hjl
    have hrel := List.pairwise_iff_get.mp h ⟨i, hil⟩ ⟨j, hjl⟩
      (Fin.mk_lt_mk.mpr hij)
    have hfav : (l.get ⟨i, hil⟩).isFavorite = true := by
      apply hrel
      rw [hgetj]
      exact hpj
    rw [List.get?_eq_get hil]
    simpa using hfav

/-- C4: in every successful response (any request, any store result,
any random draws), no non-favorited photo precedes a favorited one: if
the photo at position `j` is favorited, so is the photo at any earlier
position `i`.  This covers in particular every response for an identity
with at least one favorited photo among those returned. -/
theorem c4_favorites_first (env : HandlerEnv) (req : HandlerRequest)
    (rnd : Rand) (resp : RespBody)
    (h : (handler env req rnd).1 = .ok resp) (i j : Nat) (hij : i < j)
    (hj : (resp.photos.map (·.isFavorite)).get? j = some true) :
    (resp.photos.map (·.isFavorite)).get? i = some true := by
  obtain ⟨p, d, hsd, hpmax, hresp⟩ := handler_ok_inv h
  obtain ⟨userFavs, counts, mainPhotos, hf, hcnt, hm, hphotos, hcount, hlim⟩ :=
    respOf_ok_inv hresp
  have hpw : resp.photos.Pairwise favLe := by
    rw [hphotos, finalPhotosOf]
    split
    · exact sortByCmp_pairwise _ _
    · exact List.Pairwise.sublist (jsSlice0_sublist _ _)
        (sortByCmp_pairwise _ _)
  exact pairwise_favLe_get hpw hij hj

/-- Fields: store, favQuery, favScan, getKey, signUrl, cfDomain,
cfKeyPairId, favTable.  Both listed photos are favorites of the user. -/
def envC4 : HandlerEnv :=
  ⟨fun _ => .ok ⟨[⟨"a.jpg", 0, 0⟩, ⟨"b.jpg", 0, 0⟩], false, none⟩,
   .ok ["a.jpg", "b.jpg"], .ok (fun _ => 1), .ok "PK",
   fun _ _ _ => .ok "https://signed.example/u",
   some "cdn.example.net", some "KP", true⟩

def reqC4 : HandlerRequest := ⟨none, none, some "user-1"⟩

def rndC4 : Rand := ⟨none, fun _ _ => 0⟩

theorem c4_favorites_first_witness :
    ((okPhotos (handler envC4 reqC4 rndC4).1).map (·.isFavorite)).get? 0 =
      some true := by
  have h : (handler envC4 reqC4 rndC4).1 =
      .ok ⟨[⟨"a.jpg", "https://signed.example/u", true, 1, some 0, some 0⟩,
            ⟨"b.jpg", "https://signed.example/u", true, 1, some 0, some 0⟩],
           25, 2, false, none⟩ := by decide
  rw [h]
  exact c4_favorites_first envC4 reqC4 rndC4 _ h 0 1 (by omega) (by decide)

/-! ## C6: backfill only on the first page, at most 3 -/

/-- A photo whose key does not come from the filtered listing. -/
def outsideKeys (d : ListResult) : Photo → Bool :=
  fun ph => decide (ph.key ∉ (d.contents.filter listingFilter).map (·.key))

/-- C6: on cursor-bearing pages every returned photo key comes from the
filtered listing — no favorites are spliced in — while on any page at
most 3 returned photos carry keys from outside the filtered listing
(the spliced favorites are capped at `min(3, missing)`). -/
theorem c6_backfill (env : HandlerEnv) (req : HandlerRequest) (rnd : Rand)
    (limit : Int) (d : ListResult) (resp : RespBody)
    (h : respOf env req rnd limit d = .ok resp) :
    ((activeToken req).isSome = true →
       ∀ ph ∈ resp.photos,
         ph.key ∈ (d.contents.filter listingFilter).map (·.key)) ∧
    resp.photos.countP (outsideKeys d) ≤ 3 := by
  obtain ⟨userFavs, counts, mainPhotos, hf, hcnt, hm, hphotos, hcount, hlim⟩ :=
    respOf_ok_inv h
  have hkeys : mainPhotos.map (·.key) =
      (d.contents.filter listingFilter).map (·.key) :=
    mapExcept_ok_map (·.key) (·.key) (fun o ph hph => buildPhoto_key hph) hm
  have hperm := sortByCmp_perm (sortRank rnd.tie)
    (splicedOf env req counts userFavs mainPhotos ++ mainPhotos)
  constructor
  · intro hcur ph hph
    rw [hphotos, finalPhotosOf, if_pos hcur] at hph
    have hmem := hperm.mem_iff.mp hph
    rw [splicedOf_cursor hcur, List.nil_append] at hmem
    have hk : ph.key ∈ mainPhotos.map (·.key) := List.mem_map_of_mem _ hmem
    rw [hkeys] at hk
    exact hk
  · have hcnt0 : mainPhotos.countP (outsideKeys d) = 0 := by
      rw [List.countP_eq_zero]
      intro ph hph
      have hk : ph.key ∈ (d.contents.filter listingFilter).map (·.key) := by
        rw [← hkeys]
        exact List.mem_map_of_mem _ hph
      simp [outsideKeys, hk]
    have h1 := splicedOf_length_le env req counts userFavs mainPhotos
    have h2 : (splicedOf env req counts userFavs mainPhotos).countP
        (outsideKeys d) ≤
        (splicedOf env req counts userFavs mainPhotos).length :=
      List.countP_le_length _
    rw [hphotos, finalPhotosOf]
    split
    · rw [hperm.countP_eq, List.countP_append, hcnt0]
      omega
    · refine le_trans
        (List.Sublist.countP_le (outsideKeys d) (jsSlice0_sublist _ _)) ?_
      rw [hperm.countP_eq, List.countP_append, hcnt0]
      omega

/-- Fields: store, favQuery, favScan, getKey, signUrl, cfDomain,
cfKeyPairId, favTable.  One listed photo plus one favorite missing from
the listing. -/
def envC6 : HandlerEnv :=
  ⟨fun _ => .ok ⟨[⟨"a.jpg", 0, 0⟩], false, none⟩, .ok ["fav.jpg"],
   .ok (fun _ => 0), .ok "PK", fun _ _ _ => .ok "https://signed.example/u",
   some "cdn.example.net", some "KP", true⟩

def reqC6 : HandlerRequest := ⟨none, none, some "user-1"⟩

def rndC6 : Rand := ⟨none, fun _ _ => 0⟩

def dC6 : ListResult := ⟨[⟨"a.jpg", 0, 0⟩], false, none⟩

def respC6 : RespBody :=
  ⟨[⟨"fav.jpg", "https://signed.example/u", true, 0, none, none⟩,
    ⟨"a.jpg", "https://signed.example/u", false, 0, some 0, some 0⟩],
   25, 2, false, none⟩

theorem c6_backfill_witness :
    respC6.photos.countP (outsideKeys dC6) ≤ 3 :=
  (c6_backfill envC6 reqC6 rndC6 25 dC6 respC6 (by decide)).2

/-! ## C3: media-type and variant filters -/

/-- Fields: store, favQuery, favScan, getKey, signUrl, cfDomain,
cfKeyPairId, favTable.  The user's lone favorite is a `.txt` key; the
listing itself is empty. -/
def envC3 : HandlerEnv :=
  ⟨fun _ => .ok ⟨[], false, none⟩, .ok ["notes.txt"], .ok (fun _ => 0),
   .ok "PK", fun _ _ _ => .ok "https://signed.example/u",
   some "cdn.example.net", some "KP", true⟩

def reqC3 : HandlerRequest := ⟨none, none, some "user-1"⟩

def rndC3 : Rand := ⟨none, fun _ _ => 0⟩

/-- C3, counterexample: the favorites backfill applies no media-type or
variant filtering, so the favorited key `notes.txt` — which ends in
`.txt` and fails the listing filter — appears in a 200 response,
refuting the claim "including photos added by the favorites-backfill
step". -/
theorem c3_counterexample :
    (okPhotos (handler envC3 reqC3 rndC3).1).map (·.key) = ["notes.txt"] ∧
    strEnds ".txt" "notes.txt" = true ∧
    keyAllowed "notes.txt" = false ∧
    statusOf (handler envC3 reqC3 rndC3).1 = 200 := by
  refine ⟨by decide, by decide, by decide, by decide⟩

/-- C3 (amended): the media-type and duplicate-variant filters hold for
every photo drawn from the store listing; photos spliced in by the
favorites backfill bypass both filters, so every key in a successful
response either passes the listing filter or is one of the identity's
favorited keys. -/
theorem c3_amended_filter (env : HandlerEnv) (req : HandlerRequest)
    (rnd : Rand) (resp : RespBody) (favs : List String)
    (h : (handler env req rnd).1 = .ok resp)
    (hfav : favsOf env req = .ok favs) :
    ∀ ph ∈ resp.photos, keyAllowed ph.key = true ∨ ph.key ∈ favs := by
  obtain ⟨p, d, hsd, hpmax, hresp⟩ := handler_ok_inv h
  obtain ⟨userFavs, counts, mainPhotos, hf, hcnt, hm, hphotos, hcount, hlim⟩ :=
    respOf_ok_inv hresp
  rw [hf] at hfav
  injection hfav with hfu
  subst hfu
  intro ph hph
  rw [hphotos, finalPhotosOf] at hph
  have hsort : ph ∈ sortByCmp (sortRank rnd.tie)
      (splicedOf env req counts userFavs mainPhotos ++ mainPhotos) := by
    split at hph
    · exact hph
    · exact (jsSlice0_sublist _ _).subset hph
  have hmem := (sortByCmp_perm _ _).mem_iff.mp hsort
  rcases List.mem_append.mp hmem with hsp | hmn
  · exact Or.inr (splicedOf_mem hsp)
  · left
    obtain ⟨o, ho, hbo⟩ := mapExcept_ok_mem hm ph hmn
    have hk := buildPhoto_key hbo
    have hfo : listingFilter o = true := List.of_mem_filter ho
    rw [hk]
    exact hfo

def respC3 : RespBody :=
  ⟨[⟨"notes.txt", "https://signed.example/u", true, 0, none, none⟩],
   25, 1, false, none⟩

theorem c3_amended_filter_witness :
    keyAllowed "notes.txt" = true ∨ "notes.txt" ∈ ["notes.txt"] :=
  c3_amended_filter envC3 reqC3 rndC3 respC3 ["notes.txt"] (by decide)
    rfl ⟨"notes.txt", "https://signed.example/u", true, 0, none, none⟩
    (by decide)

/-! ## C7: per-item signing failures -/

/-- C7: a failing per-item signing operation is request-fatal on the
main page-generation path (the response is a 500 whenever any filtered
listing object's URL fails to sign), but tolerated on the
favorites-backfill path (a successful response simply omits the
favorite whose signing failed). -/
theorem c7_signing (env : HandlerEnv) (req : HandlerRequest) (rnd : Rand)
    (limit : Int) (d : ListResult) (dom kp pk k e : String)
    (hd : env.cfDomain = some dom) (hk : env.cfKeyPairId = some kp)
    (hkey : env.getKey = .ok pk)
    (hsig : env.signUrl pk kp (cfUrl dom k) = .error e) :
    ((∃ o ∈ d.contents.filter listingFilter, o.key = k) →
       statusOf (respOf env req rnd limit d) = 500) ∧
    (∀ resp, respOf env req rnd limit d = .ok resp →
       k ∉ resp.photos.map (·.key)) := by
  have hscf : getCloudFrontSignedUrl env k =
      .error ("Failed to generate CloudFront signed URL: " ++ e) := by
    simp only [getCloudFrontSignedUrl, hd, hk, hkey, hsig]
  have hbuild : ∀ (counts : String → Nat) (userFavs : List String)
      (o : S3Object), o.key = k →
      buildPhoto env counts userFavs o =
        .error ("Failed to generate signed URL: " ++
          ("Failed to generate CloudFront signed URL: " ++ e)) := by
    intro counts userFavs o hko
    rw [buildPhoto, if_pos (by rw [hd, hk]; rfl), hko]
    simp only [hscf]
  constructor
  · rintro ⟨o, ho, hko⟩
    rw [respOf]
    cases hfv : favsOf env req with
    | error e' => simp [statusOf]
    | ok favs =>
      cases hc : countsOf env req with
      | error e' => simp [statusOf]
      | ok counts =>
        cases hpf : prefetchOf env with
        | error e' => simp [statusOf]
        | ok u =>
          obtain ⟨m, hmap⟩ :=
            mapExcept_error_of_mem ho (hbuild counts favs o hko)
          simp [hmap, statusOf]
  · intro resp hresp hkmem
    obtain ⟨userFavs, counts, mainPhotos, hf, hcnt, hm, hphotos, _, _⟩ :=
      respOf_ok_inv hresp
    obtain ⟨ph, hphm, hphk⟩ := List.mem_map.mp hkmem
    rw [hphotos, finalPhotosOf] at hphm
    have hsort : ph ∈ sortByCmp (sortRank rnd.tie)
        (splicedOf env req counts userFavs mainPhotos ++ mainPhotos) := by
      split at hphm
      · exact hphm
      · exact (jsSlice0_sublist _ _).subset hphm
    have hph2 := (sortByCmp_perm _ _).mem_iff.mp hsort
    rcases List.mem_append.mp hph2 with hsp | hmn
    · rw [splicedOf] at hsp
      split at hsp
      · rw [backfillList] at hsp
        obtain ⟨k', hk'', hbp⟩ := List.mem_filterMap.mp hsp
        have hkk : k' = k := by
          rw [← (backfillPhoto_some hbp).1, hphk]
        subst hkk
        rw [backfillPhoto] at hbp
        simp only [hscf] at hbp
        cases hbp
      · cases hsp
    · obtain ⟨o, hom, hbo⟩ := mapExcept_ok_mem hm ph hmn
      rw [hbuild counts userFavs o
        (by rw [← buildPhoto_key hbo]; exact hphk)] at hbo
      cases hbo

/-- Fields: store, favQuery, favScan, getKey, signUrl, cfDomain,
cfKeyPairId, favTable.  Every signing operation fails. -/
def envC7 : HandlerEnv :=
  ⟨fun _ => .ok ⟨[], false, none⟩, .ok [], .ok (fun _ => 0), .ok "PK",
   fun _ _ _ => .error "boom", some "cdn.example.net", some "KP", true⟩

def reqC7 : HandlerRequest := ⟨none, none, none⟩

def rndC7 : Rand := ⟨none, fun _ _ => 0⟩

def dC7 : ListResult := ⟨[⟨"bad.jpg", 0, 0⟩], false, none⟩

theorem c7_signing_witness :
    statusOf (respOf envC7 reqC7 rndC7 25 dC7) = 500 :=
  (c7_signing envC7 reqC7 rndC7 25 dC7 "cdn.example.net" "KP" "PK"
      "bad.jpg" "boom" rfl rfl rfl rfl).1
    ⟨⟨"bad.jpg", 0, 0⟩, by decide, rfl⟩

/-! ## C2: invalid `nextToken` status -/

/-- Fields: store, favQuery, favScan, getKey, signUrl, cfDomain,
cfKeyPairId, favTable.  The store rejects every call. -/
def envC2 : HandlerEnv :=
  ⟨fun _ => .error "InvalidArgument", .ok [], .ok (fun _ => 0), .ok "PK",
   fun _ _ _ => .ok "https://signed.example/u",
   some "cdn.example.net", some "KP", true⟩

def reqC2 : HandlerRequest := ⟨none, some "!!!!", none⟩

def rndC2 : Rand := ⟨none, fun _ _ => 0⟩

/-- Fields as in `envC2`, but the store accepts every call and returns
an empty listing: the lenient decode of a non-base64 token can thus be
accepted downstream. -/
def envC2b : HandlerEnv :=
  ⟨fun _ => .ok ⟨[], false, none⟩, .ok [], .ok (fun _ => 0), .ok "PK",
   fun _ _ _ => .ok "https://signed.example/u",
   some "cdn.example.net", some "KP", true⟩

def reqC2b : HandlerRequest := ⟨none, some "QUJD!", none⟩

theorem statusOf_ne_400 (x : Except String RespBody) : statusOf x ≠ 400 := by
  cases x <;> simp [statusOf]

/-- C2, counterexample: a request whose `nextToken` the store rejects is
answered with HTTP 500, not the claimed 400; and a non-base64 token
(`"QUJD!"`, rejected by a strict decoder) is decoded leniently by
`Buffer.from` to the bytes of `"ABC"` and, when the store accepts them,
the handler even returns 200 — in neither case the claimed 400. -/
theorem c2_counterexample :
    statusOf (handler envC2 reqC2 rndC2).1 = 500 ∧
    statusOf (handler envC2 reqC2 rndC2).1 ≠ 400 ∧
    b64Decode "QUJD!" = none ∧
    b64DecodeLenient "QUJD!" = [65, 66, 67] ∧
    statusOf (handler envC2b reqC2b rndC2).1 = 200 := by
  refine ⟨by decide, by decide, by decide, by decide, by decide⟩

/-- C2 (amended): an invalid `nextToken` never yields a 400 — the
handler has no 400 path at all.  Decoding never fails: `Buffer.from`
decodes leniently (the `Invalid nextToken provided` throw at line 281
is dead code), so every cursor-bearing request issues exactly one
listing call with the leniently decoded token, and the response is 500
precisely when a downstream step fails — in particular whenever the
store rejects the decoded token.  A non-base64 token whose leniently
decoded bytes the store accepts can return 200. -/
theorem c2_amended_status (env : HandlerEnv) (req : HandlerRequest)
    (rnd : Rand) (tok : String) (htok : activeToken req = some tok) :
    statusOf (handler env req rnd).1 ≠ 400 ∧
    (handler env req rnd).2 =
      [tokenParams (effectiveLimit req.limitParam) (b64DecodeLenient tok)] ∧
    (∀ e, env.store (tokenParams (effectiveLimit req.limitParam)
        (b64DecodeLenient tok)) = .error e →
      statusOf (handler env req rnd).1 = 500) := by
  rw [handler]
  simp only [htok]
  cases hs : env.store (tokenParams (effectiveLimit req.limitParam)
      (b64DecodeLenient tok)) with
  | error e0 =>
    refine ⟨statusOf_ne_400 _, rfl, fun e he => rfl⟩
  | ok d =>
    exact ⟨statusOf_ne_400 _, rfl, fun e he => absurd he (by simp)⟩

theorem c2_amended_status_witness :
    statusOf (handler envC2 reqC2 rndC2).1 = 500 :=
  (c2_amended_status envC2 reqC2 rndC2 "!!!!" rfl).2.2 "InvalidArgument" rfl

/-! ## C5: first-page fallback listing -/

/-- Contents of a successful listing result ([] for an error). -/
def okContents : Except String ListResult → List S3Object
  | .ok r => r.contents
  | .error _ => []

/-- Fields: store, favQuery, favScan, getKey, signUrl, cfDomain,
cfKeyPairId, favTable.  The store returns 20 objects on every call. -/
def envC5 : HandlerEnv :=
  ⟨fun _ => .ok ⟨List.replicate 20 ⟨"k.jpg", 0, 0⟩, true, some [65]⟩,
   .ok [], .ok (fun _ => 0), .ok "PK",
   fun _ _ _ => .ok "https://signed.example/u",
   some "cdn.example.net", some "KP", true⟩

def reqC5 : HandlerRequest := ⟨some (some 50), none, none⟩

def rndC5 : Rand := ⟨some "2020", fun _ _ => 0⟩

/-- C5, counterexample: with `limit=50` the sampled listing returns 20
items — fewer than `limit/2 = 25`, so the claim demands a fallback —
yet the handler issues no fallback call, because the code's actual
threshold is `min(limit/2, 10) = 10`: the trace holds only the sampled
call. -/
theorem c5_counterexample :
    ((20 : ℚ) < (50 : ℚ) / 2) ∧
    effectiveLimit reqC5.limitParam = 50 ∧
    ((okContents (envC5.store (sampleParams 50 (some "2020")))).length = 20) ∧
    (handler envC5 reqC5 rndC5).2 = [sampleParams 50 (some "2020")] := by
  refine ⟨by norm_num, by decide, by decide, by decide⟩

/-- C5 (amended): the full-range fallback listing is issued exactly when
a first-page request used a random `StartAfter` and the sampled listing
returned fewer than `min(limit/2, 10)` items; the sampled result is
discarded in favor of the fallback only when the fallback returns
strictly more items, and kept otherwise — including when the fallback
call itself fails. -/
theorem c5_amended_fallback (env : HandlerEnv) (req : HandlerRequest)
    (rnd : Rand) (d : ListResult)
    (hat : activeToken req = none)
    (hsat : startAfterTruthy rnd.randKey = true)
    (hsd : env.store (sampleParams (effectiveLimit req.limitParam)
      rnd.randKey) = .ok d)
    (hfew : fallbackNeeded (effectiveLimit req.limitParam) d) :
    (handler env req rnd).2 =
      [sampleParams (effectiveLimit req.limitParam) rnd.randKey,
       fallbackParams (effectiveLimit req.limitParam)] ∧
    (∀ fd, env.store (fallbackParams (effectiveLimit req.limitParam)) =
        .ok fd →
      (handler env req rnd).1 =
        respOf env req rnd (effectiveLimit req.limitParam)
          (if fd.contents.length > d.contents.length then fd else d)) ∧
    (∀ e, env.store (fallbackParams (effectiveLimit req.limitParam)) =
        .error e →
      (handler env req rnd).1 =
        respOf env req rnd (effectiveLimit req.limitParam) d) := by
  rw [handler]
  simp only [hat, hsd, hsat, eq_self_iff_true, if_true, if_pos hfew]
  refine ⟨?_, ?_, ?_⟩
  · split
    · rfl
    · split <;> rfl
  · intro fd hfd
    split
    next e0 heq => exact absurd (heq.symm.trans hfd) (by simp)
    next fd1 heq =>
      have h1 : fd1 = fd := by
        have h2 := heq.symm.trans hfd
        injection h2
      rw [h1]
      by_cases hgt : fd.contents.length > d.contents.length
      · rw [if_pos hgt, if_pos hgt]
      · rw [if_neg hgt, if_neg hgt]
  · intro e he
    split
    next e0 heq => rfl
    next fd1 heq => exact absurd (heq.symm.trans he) (by simp)

/-- Store for the C5 witness: the sampled call (with `StartAfter`)
returns nothing, the fallback returns one object. -/
def envC5w : HandlerEnv :=
  ⟨fun p => if p.startAfter.isSome then .ok ⟨[], false, none⟩
            else .ok ⟨[⟨"a.jpg", 0, 0⟩], false, none⟩,
   .ok [], .ok (fun _ => 0), .ok "PK",
   fun _ _ _ => .ok "https://signed.example/u",
   some "cdn.example.net", some "KP", true⟩

def reqC5w : HandlerRequest := ⟨none, none, none⟩

def rndC5w : Rand := ⟨some "2020", fun _ _ => 0⟩

theorem c5_amended_fallback_witness :
    (handler envC5w reqC5w rndC5w).2 =
      [sampleParams (effectiveLimit reqC5w.limitParam) rndC5w.randKey,
       fallbackParams (effectiveLimit reqC5w.limitParam)] :=
  (c5_amended_fallback envC5w reqC5w rndC5w ⟨[], false, none⟩ rfl rfl rfl
    (by decide)).1

end ShareAlbum
